import Mathlib

/-!
Shallow embedding of the auto-book acquisition board (a single-page
book-acquisition workflow tool) and proofs about its spec.

Sources embedded:
- `src/unnamed/part_000` (the book service: proxy fetch gateway,
  Aladin/NLK catalog client, filters, merge logic);
- `src/services/geminiService.ts` (AI analysis collaborator);
- `src/App.tsx` (acquisition board state machine, discovery install,
  CSV export).

Network I/O is represented by explicit environments: the outcome of each
HTTP attempt, and the parsed provider responses, are passed in as data.
JS `Date` parsing is represented by an abstract parse function
`String → Option Int` (timestamp), and "now minus one year" by an `Int`
cutoff, since the host date parser is not part of this repository.
-/

namespace AutoBook

/-- Book status tags from `types.ts` (`BookStatus`). -/
inductive BookStatus where
  | discovery
  | review
  | confirmed
deriving DecidableEq, Repr

/-- The unified book record from `types.ts` (`Book`). `categoryName` and
`status` are optional there, hence `Option` here. -/
structure Book where
  id : String
  title : String
  author : String
  publisher : String
  pubDate : String
  cover : String
  description : String
  isbn13 : String
  priceStandard : Nat
  priceSales : Nat
  link : String
  categoryName : Option String
  status : Option BookStatus
deriving DecidableEq, Repr

/-- The AI report record from `types.ts` (`GeminiAnalysis`). -/
structure GeminiAnalysis where
  summary : String
  budgetAnalysis : String
  categoryBreakdown : String
  recommendationScore : Int
deriving DecidableEq, Repr

/-- The ids of a list of books (used for exclusion sets and dedup). -/
def bookIds (l : List Book) : List String :=
  l.map (fun b => b.id)

/-! ## Proxy fetch gateway (`fetchWithRetry` in the book service) -/

/-- Number of configured relay proxies (the `PROXIES` array has 2 entries). -/
def proxyCount : Nat := 2

/-- Attempts per proxy (the inner `for` loop runs `attempt = 0, 1`). -/
def attemptsPerProxy : Nat := 2

/-- The sequence of attempt outcomes, proxy-major then attempt-minor,
exactly the order the nested loops of `fetchWithRetry` visit them.
`env p a` is the outcome of attempt `a` on proxy `p`: `Except.ok v` when
the transport succeeded, the HTTP status was ok and the body parsed as
JSON; `Except.error e` otherwise. -/
def fetchAttempts {V : Type} (env : Nat → Nat → Except String V) :
    List (Except String V) :=
  (List.range proxyCount).flatMap fun p =>
    (List.range attemptsPerProxy).map fun a => env p a

/-- The retry loop body: return the first success (`Sum.inl`), and after
the list is exhausted return the last error seen, starting from the
incoming `lastError` (`Sum.inr`). -/
def runAttempts {V : Type} :
    List (Except String V) → Option String → V ⊕ Option String
  | [], lastErr => Sum.inr lastErr
  | Except.ok v :: _, _ => Sum.inl v
  | Except.error e :: rest, _ => runAttempts rest (some e)

/-- `fetchWithRetry` from the book service: walk all proxy/attempt
combinations in order, return the first accepted body; after exhausting
them all, raise the last error, or a generic error if none was captured. -/
def fetchWithRetry {V : Type} (env : Nat → Nat → Except String V) :
    Except String V :=
  match runAttempts (fetchAttempts env) none with
  | Sum.inl v => Except.ok v
  | Sum.inr (some e) => Except.error e
  | Sum.inr none =>
      Except.error "Network Error: Failed to fetch data from all proxies."

/-! ## Catalog client: raw items, mapping, filters -/

/-- A raw commercial-catalog (Aladin) item, with the fields read by
`mapAladinItemToBook`. -/
structure AladinItem where
  itemId : Nat
  title : String
  author : String
  publisher : String
  pubDate : String
  cover : String
  description : Option String
  isbn13 : String
  priceStandard : Nat
  priceSales : Nat
  link : String
  categoryName : Option String
deriving DecidableEq, Repr

/-- `mapAladinItemToBook` from the book service: `id` is the string form
of `itemId`, missing description becomes `""`, status is forced to
`discovery`. -/
def mapAladinItemToBook (item : AladinItem) : Book :=
  { id := toString item.itemId
    title := item.title
    author := item.author
    publisher := item.publisher
    pubDate := item.pubDate
    cover := item.cover
    description := item.description.getD ""
    isbn13 := item.isbn13
    priceStandard := item.priceStandard
    priceSales := item.priceSales
    link := item.link
    categoryName := item.categoryName
    status := some BookStatus.discovery }

/-- `isWithinOneYear` from the book service. `parseDate` stands for the
host's `new Date(s)` (`none` = Invalid Date), `oneYearAgo` for the
timestamp of now minus one year. The source returns `false` on an empty
date string, `true` on an unparsable nonempty string ("keep if date is
invalid to be safe"), and otherwise compares timestamps. -/
def isWithinOneYear (parseDate : String → Option Int) (oneYearAgo : Int)
    (dateStr : String) : Bool :=
  if dateStr = "" then false
  else
    match parseDate dateStr with
    | none => true
    | some t => oneYearAgo ≤ t

/-- The comics marker literal filtered out of commercial-catalog results. -/
def comicMarker : String := "만화"

/-- Substring containment on the underlying character lists, standing for
JS `String.prototype.includes`. -/
def strContains (s pat : String) : Bool :=
  decide (pat.toList <:+: s.toList)

/-- `isNotComic` from the book service: keep a book unless its category
path contains the comics marker; a missing category is kept. -/
def isNotComic (book : Book) : Bool :=
  match book.categoryName with
  | none => true
  | some c => !(strContains c comicMarker)

/-! ## Dedup-by-id with last-occurrence-wins (the `combined` merge)

`new Map(combined.map(item => [item.id, item]))` keeps keys in order of
first insertion and overwrites the value on a repeated key, so
`Array.from(map.values())` lists, for each distinct id in order of first
occurrence, the LAST element of `combined` bearing that id. -/

/-- Dedup by id, first-occurrence order, last-occurrence value. -/
def dedupLast : List Book → List Book
  | [] => []
  | b :: rest =>
      (((b :: rest).reverse.find? fun y => y.id == b.id).getD b) ::
        dedupLast (rest.filter fun y => !(y.id == b.id))
termination_by l => l.length
decreasing_by
  simp only [List.length_cons]
  exact Nat.lt_succ_of_le (List.length_filter_le _ _)

/-! ## Provider responses and `fetchBooks` / `searchBooks` -/

/-- An Aladin list/search response body: `{ errorCode?, errorMessage?,
item? }`. `item = none` covers both a missing field and a non-array value
(the source guards with `Array.isArray`). -/
structure AladinResponse where
  errorCode : Option String
  errorMessage : Option String
  item : Option (List AladinItem)
deriving DecidableEq, Repr

/-- A raw national-library (NLK) document, with the fields read by the
`editorRecommend` branch of `fetchBooks`. An empty `isbn13` stands for a
missing/falsy value. -/
structure NlkDoc where
  isbn13 : String
  no : Nat
  bookname : String
  authors : String
  publisher : String
  publicationYear : String
  bookImageURL : String
  description : String
  classNm : Option String
  bookDtlUrl : String
deriving DecidableEq, Repr

/-- An NLK recommendation response body: `{ response: { error?, docs? } }`. -/
structure NlkResponse where
  error : Option String
  docs : Option (List NlkDoc)
deriving DecidableEq, Repr

/-- JS `a || b` on strings (empty string is falsy). -/
def jsOr (a b : String) : String :=
  if a = "" then b else a

/-- The mapping of an NLK wrapped document to a `Book` inside the
`editorRecommend` branch: library-namespaced id, prices hardcoded to 0,
status `discovery`, and no comic filter applied afterwards. -/
def mapNlkDocToBook (doc : NlkDoc) : Book :=
  { id := "nlk-" ++ (if doc.isbn13 = "" then toString doc.no else doc.isbn13)
    title := doc.bookname
    author := doc.authors
    publisher := doc.publisher
    pubDate := doc.publicationYear
    cover := doc.bookImageURL
    description := jsOr doc.description ((doc.classNm).getD "")
    isbn13 := doc.isbn13
    priceStandard := 0
    priceSales := 0
    link := doc.bookDtlUrl
    categoryName := doc.classNm
    status := some BookStatus.discovery }

/-- The provider responses a single `fetchBooks` call can consume: the
bestseller listing, the new-special listing, and the NLK recommendation
listing (each branch reads only the ones it fetches). -/
structure FetchEnv where
  bestseller : AladinResponse
  itemNewSpecial : AladinResponse
  nlk : NlkResponse
deriving DecidableEq, Repr

/-- Fetch sources from `types.ts` (`FetchSource`). -/
inductive FetchSource where
  | combined
  | bestseller
  | itemNewSpecial
  | editorRecommend
deriving DecidableEq, Repr

/-- The books an Aladin listing response maps to (its `item` array run
through `mapAladinItemToBook`; a missing/non-array `item` yields `[]`). -/
def aladinBooks (r : AladinResponse) : List Book :=
  (r.item.getD []).map mapAladinItemToBook

/-- Mapping of one Aladin listing response to books: a provider error
code raises, otherwise the mapped `item` array is returned. `msg` is the
error-message prefix of the branch. -/
def aladinListBooks (msg : String) (r : AladinResponse) :
    Except String (List Book) :=
  match r.errorCode with
  | some _ => Except.error (msg ++ (r.errorMessage.getD ""))
  | none => Except.ok (aladinBooks r)

/-- `fetchBooks` from the book service. Keys are strings with `""`
standing for a missing/falsy key. The `editorRecommend` branch maps NLK
docs with no comic filter; the three Aladin branches return `[]` when the
ttb key is missing, and apply the comic filter to their result; the
`combined` branch merges bestseller and new-special lists and dedups by
id, last occurrence winning. -/
def fetchBooks (source : FetchSource) (ttbKey nlkKey : String)
    (env : FetchEnv) : Except String (List Book) :=
  match source with
  | FetchSource.editorRecommend =>
      if nlkKey = "" then Except.error "국립중앙도서관 API 키가 필요합니다."
      else
        match env.nlk.error with
        | some e => Except.error e
        | none =>
            match env.nlk.docs with
            | none => Except.ok []
            | some docs => Except.ok (docs.map mapNlkDocToBook)
  | FetchSource.bestseller =>
      if ttbKey = "" then Except.ok []
      else
        match aladinListBooks "Aladin Error: " env.bestseller with
        | Except.error e => Except.error e
        | Except.ok books => Except.ok (books.filter isNotComic)
  | FetchSource.itemNewSpecial =>
      if ttbKey = "" then Except.ok []
      else
        match aladinListBooks "Aladin Error: " env.itemNewSpecial with
        | Except.error e => Except.error e
        | Except.ok books => Except.ok (books.filter isNotComic)
  | FetchSource.combined =>
      if ttbKey = "" then Except.ok []
      else
        match aladinListBooks "Aladin Bestseller Error: " env.bestseller with
        | Except.error e => Except.error e
        | Except.ok bestsellers =>
            match aladinListBooks "Aladin NewSpecial Error: "
                env.itemNewSpecial with
            | Except.error e => Except.error e
            | Except.ok newSpecials =>
                Except.ok
                  ((dedupLast (bestsellers ++ newSpecials)).filter isNotComic)

/-- `searchBooks` from the book service: empty query or key yields `[]`
with no call made; a provider error raises; otherwise items are mapped and
then filtered by recency (`isWithinOneYear`) and by category
(`isNotComic`), in that order. -/
def searchBooks (parseDate : String → Option Int) (oneYearAgo : Int)
    (query ttbKey : String) (resp : AladinResponse) :
    Except String (List Book) :=
  if query = "" || ttbKey = "" then Except.ok []
  else
    match resp.errorCode with
    | some c =>
        Except.error ("Aladin Search Error: " ++ jsOr (resp.errorMessage.getD "") c)
    | none =>
        match resp.item with
        | none => Except.ok []
        | some items =>
            Except.ok
              (((items.map mapAladinItemToBook).filter fun b =>
                  isWithinOneYear parseDate oneYearAgo b.pubDate).filter
                isNotComic)

/-! ## AI analysis collaborator (`geminiService.ts`) -/

/-- The canned zero-value report returned for an empty book list. -/
def cannedEmptyReport : GeminiAnalysis :=
  { summary := "선택된 도서가 없습니다."
    budgetAnalysis := "0원"
    categoryBreakdown := "없음"
    recommendationScore := 0 }

/-- Outcome of an `analyzeAcquisitionList` call: the returned/raised
value, and whether the generative-AI endpoint was actually called. -/
structure AnalyzeOutcome where
  result : Except String GeminiAnalysis
  endpointCalled : Bool
deriving Repr

/-- `analyzeAcquisitionList` from `geminiService.ts`. `apiKey = ""`
stands for a missing/falsy `process.env.API_KEY`, which raises before
anything else; an empty book list then short-circuits to the canned
report; otherwise the endpoint is called and its outcome (`endpointResp`)
is returned, with any failure converted to the user-facing retry
message. -/
def analyzeAcquisitionList (apiKey : String)
    (endpointResp : Except String GeminiAnalysis) (books : List Book) :
    AnalyzeOutcome :=
  if apiKey = "" then
    { result := Except.error "Gemini API Key is not configured."
      endpointCalled := false }
  else if books.length = 0 then
    { result := Except.ok cannedEmptyReport, endpointCalled := false }
  else
    { result :=
        match endpointResp with
        | Except.ok r => Except.ok r
        | Except.error _ =>
            Except.error "AI 분석에 실패했습니다. 잠시 후 다시 시도해주세요."
      endpointCalled := true }

/-! ## Acquisition board (`App.tsx`) -/

/-- The board state: the three Kanban collections plus the cached AI
analysis report (`analysis` in `App.tsx`). -/
structure AppState where
  discovery : List Book
  review : List Book
  confirmed : List Book
  analysis : Option GeminiAnalysis
deriving DecidableEq, Repr

/-- The actions accepted by `moveBook` (`'add' | 'approve' | 'remove' |
'return'`); `ret` stands for the `'return'` action. -/
inductive MoveAction where
  | add
  | approve
  | remove
  | ret
deriving DecidableEq, Repr

/-- `moveBook` from `App.tsx`. `add`: from discovery to the front of
review with status `review`. `approve`: from review to the front of
confirmed with status `confirmed`, invalidating the analysis. `ret` on a
`confirmed`-status book: back to the front of review, invalidating the
analysis; `ret` on a `review`-status book: removed from review only;
`ret` otherwise: no state change. `remove` has no branch in the source,
hence no state change. -/
def moveBook (s : AppState) (book : Book) (action : MoveAction) : AppState :=
  match action with
  | MoveAction.add =>
      { s with
        discovery := s.discovery.filter fun b => !(b.id == book.id)
        review := { book with status := some BookStatus.review } :: s.review }
  | MoveAction.approve =>
      { s with
        review := s.review.filter fun b => !(b.id == book.id)
        confirmed :=
          { book with status := some BookStatus.confirmed } :: s.confirmed
        analysis := none }
  | MoveAction.ret =>
      if book.status = some BookStatus.confirmed then
        { s with
          confirmed := s.confirmed.filter fun b => !(b.id == book.id)
          review := { book with status := some BookStatus.review } :: s.review
          analysis := none }
      else if book.status = some BookStatus.review then
        { s with review := s.review.filter fun b => !(b.id == book.id) }
      else s
  | MoveAction.remove => s

/-- The exclusion set recomputed whenever review/confirmed change
(`excludedIdsRef` effect in `App.tsx`): the ids of
`[...reviewBooks, ...confirmedBooks]`. -/
def excludedIds (s : AppState) : List String :=
  bookIds (s.review ++ s.confirmed)

/-- Installing a discovery fetch/search result (`loadDiscoveryBooks` and
`handleSearch` in `App.tsx`): the fetched data is filtered against the
exclusion set and replaces the discovery list. -/
def installFetched (s : AppState) (data : List Book) : AppState :=
  { s with
    discovery := data.filter fun b => !((excludedIds s).contains b.id) }

/-! ## CSV purchase-order export (`handleDownloadOrder` in `App.tsx`) -/

/-- Per-character doubling of double quotes, standing for
`s.replace(/"/g, '""')`. -/
def escapeQuotes (s : String) : String :=
  String.mk (s.toList.flatMap fun c => if c = '"' then ['"', '"'] else [c])

/-- A text field escaped the way `handleDownloadOrder` escapes title,
author and publisher: quotes doubled, then wrapped in double quotes. -/
def escapeField (s : String) : String :=
  "\"" ++ escapeQuotes s ++ "\""

/-- A text field as `handleDownloadOrder` emits publication date, ISBN-13
and category: wrapped in double quotes with NO escaping of the content. -/
def quoteWrap (s : String) : String :=
  "\"" ++ s ++ "\""

/-- The CSV fields of one confirmed book's row, in column order. -/
def csvFields (b : Book) : List String :=
  [escapeField b.title,
   escapeField b.author,
   escapeField b.publisher,
   quoteWrap b.pubDate,
   toString b.priceStandard,
   toString b.priceSales,
   quoteWrap b.isbn13,
   quoteWrap (b.categoryName.getD "")]

/-- One CSV data row. -/
def csvRow (b : Book) : String :=
  String.intercalate "," (csvFields b)

/-- The CSV header row (`headers.join(',')`). -/
def csvHeader : String :=
  String.intercalate "," ["제목", "저자", "출판사", "출판일", "정가",
    "판매가", "ISBN", "카테고리"]

/-- The UTF-8 byte-order mark prepended to the export (U+FEFF). -/
def bomChar : Char := '\uFEFF'

/-- The full CSV content built by `handleDownloadOrder`: BOM, then the
header and one row per confirmed book joined with newlines. -/
def csvContent (books : List Book) : String :=
  String.mk [bomChar] ++
    String.intercalate "\n" (csvHeader :: books.map csvRow)

/-- One step of a standard CSV quoted-field scanner, after the opening
quote has been consumed: `""` yields a literal quote, a lone closing
quote must end the field, and an unterminated field is rejected. -/
def scanQuoted : List Char → Option (List Char)
  | [] => none
  | c :: rest =>
      if c = '"' then
        match rest with
        | [] => some []
        | c2 :: rest2 =>
            if c2 = '"' then (scanQuoted rest2).map fun l => '"' :: l
            else none
      else (scanQuoted rest).map fun l => c :: l

/-- A standard CSV parse of one complete quoted field: an opening quote,
then the scanned body. -/
def parseCsvField (s : String) : Option String :=
  match s.toList with
  | '"' :: rest => (scanQuoted rest).map String.mk
  | _ => none

/-! ## Concrete sample values used by witnesses and counterexamples -/

/-- A base book record for concrete instantiations. -/
def baseBook : Book :=
  { id := "0"
    title := "T"
    author := "A"
    publisher := "P"
    pubDate := "2025-01-01"
    cover := ""
    description := ""
    isbn13 := "9790000000000"
    priceStandard := 10000
    priceSales := 9000
    link := ""
    categoryName := some "국내도서>소설"
    status := some BookStatus.discovery }

/-- A sample book sitting in the review column. -/
def bookR : Book :=
  { baseBook with id := "1", status := some BookStatus.review }

/-- A sample book sitting in the confirmed column. -/
def bookC : Book :=
  { baseBook with id := "2", status := some BookStatus.confirmed }

/-- A sample board state with one book per column. -/
def state1 : AppState :=
  { discovery := [baseBook]
    review := [bookR]
    confirmed := [bookC]
    analysis := none }

/-! ## Claims -/

/-- Claim C10: calling the board transition function with action
`'return'` on a book whose status is `'discovery'` or undefined is a
no-op — the discovery, review and confirmed collections and the cached
analysis report are all left unchanged. -/
theorem moveBook_return_noop (s : AppState) (book : Book)
    (h : book.status = some BookStatus.discovery ∨ book.status = none) :
    moveBook s book MoveAction.ret = s := by
  rcases h with h | h <;> simp [moveBook, h]

/-- Witness for C10 at a concrete state and discovery-status book. -/
theorem moveBook_return_noop_witness :
    (baseBook.status = some BookStatus.discovery ∨ baseBook.status = none) ∧
      moveBook state1 baseBook MoveAction.ret = state1 :=
  ⟨Or.inl rfl, moveBook_return_noop state1 baseBook (Or.inl rfl)⟩

/-- Claim C6: the `'return'` action on a `confirmed`-status book removes
it from confirmed and prepends it to review with status `'review'`
(discovery untouched) and invalidates the cached analysis report; the
`'return'` action on a `review`-status book removes it from review and
places it in no other collection (discovery and confirmed unchanged). -/
theorem moveBook_ret_spec (s : AppState) (book : Book) :
    (book.status = some BookStatus.confirmed →
      (moveBook s book MoveAction.ret).confirmed =
          s.confirmed.filter (fun b => !(b.id == book.id))
      ∧ book.id ∉ bookIds (moveBook s book MoveAction.ret).confirmed
      ∧ (moveBook s book MoveAction.ret).review =
          { book with status := some BookStatus.review } :: s.review
      ∧ (moveBook s book MoveAction.ret).discovery = s.discovery
      ∧ (moveBook s book MoveAction.ret).analysis = none)
  ∧ (book.status = some BookStatus.review →
      (moveBook s book MoveAction.ret).review =
          s.review.filter (fun b => !(b.id == book.id))
      ∧ book.id ∉ bookIds (moveBook s book MoveAction.ret).review
      ∧ (moveBook s book MoveAction.ret).discovery = s.discovery
      ∧ (moveBook s book MoveAction.ret).confirmed = s.confirmed
      ∧ (moveBook s book MoveAction.ret).analysis = s.analysis) := by
  constructor
  · intro h
    have e : moveBook s book MoveAction.ret =
        { s with
          confirmed := s.confirmed.filter (fun b => !(b.id == book.id))
          review := { book with status := some BookStatus.review } :: s.review
          analysis := none } := by
      simp [moveBook, h]
    rw [e]
    refine ⟨rfl, ?_, rfl, rfl, rfl⟩
    intro hmem
    rcases List.mem_map.1 hmem with ⟨x, hx, hid⟩
    rcases List.mem_filter.1 hx with ⟨_, hpred⟩
    simp only [Bool.not_eq_eq_eq_not, Bool.not_true, beq_eq_false_iff_ne,
      ne_eq] at hpred
    exact hpred hid
  · intro h
    have e : moveBook s book MoveAction.ret =
        { s with
          review := s.review.filter (fun b => !(b.id == book.id)) } := by
      simp [moveBook, h]
    rw [e]
    refine ⟨rfl, ?_, rfl, rfl, rfl⟩
    intro hmem
    rcases List.mem_map.1 hmem with ⟨x, hx, hid⟩
    rcases List.mem_filter.1 hx with ⟨_, hpred⟩
    simp only [Bool.not_eq_eq_eq_not, Bool.not_true, beq_eq_false_iff_ne,
      ne_eq] at hpred
    exact hpred hid

/-- Witness for C6 at a concrete state, returning the confirmed book. -/
theorem moveBook_ret_spec_witness :
    (bookC.status = some BookStatus.confirmed) ∧
      bookC.id ∉ bookIds (moveBook state1 bookC MoveAction.ret).confirmed :=
  ⟨rfl, ((moveBook_ret_spec state1 bookC).1 rfl).2.1⟩

/-- Claim C5: approving a book that is in the review collection removes
it from review and prepends it to confirmed exactly once, with its status
set to `'confirmed'` and the cached analysis report invalidated; the book
is not present in both collections afterwards, and review/confirmed id
stay disjoint. The hypotheses are the board identity invariant: the book
is under review and review/confirmed ids are disjoint. -/
theorem moveBook_approve_spec (s : AppState) (book : Book)
    (hmem : book.id ∈ bookIds s.review)
    (hdisj : ∀ i ∈ bookIds s.review, i ∉ bookIds s.confirmed) :
    (bookIds (moveBook s book MoveAction.approve).confirmed).count book.id = 1
  ∧ (moveBook s book MoveAction.approve).confirmed =
      { book with status := some BookStatus.confirmed } :: s.confirmed
  ∧ book.id ∉ bookIds (moveBook s book MoveAction.approve).review
  ∧ (moveBook s book MoveAction.approve).discovery = s.discovery
  ∧ (moveBook s book MoveAction.approve).analysis = none
  ∧ ∀ i ∈ bookIds (moveBook s book MoveAction.approve).review,
      i ∉ bookIds (moveBook s book MoveAction.approve).confirmed := by
  have hnc : book.id ∉ bookIds s.confirmed := hdisj _ hmem
  refine ⟨?_, rfl, ?_, rfl, rfl, ?_⟩
  · simp only [moveBook, bookIds, List.map_cons, List.count_cons,
      beq_self_eq_true, if_true]
    have : (s.confirmed.map fun b => b.id).count book.id = 0 :=
      List.count_eq_zero.2 (by simpa [bookIds] using hnc)
    simp [this]
  · intro hmm
    rcases List.mem_map.1 hmm with ⟨x, hx, hid⟩
    rcases List.mem_filter.1 hx with ⟨_, hpred⟩
    simp only [Bool.not_eq_eq_eq_not, Bool.not_true, beq_eq_false_iff_ne,
      ne_eq] at hpred
    exact hpred hid
  · intro i hi hic
    simp only [moveBook, bookIds, List.map_cons, List.mem_cons] at hic hi
    rcases List.mem_map.1 hi with ⟨x, hx, hid⟩
    rcases List.mem_filter.1 hx with ⟨hxs, hpred⟩
    simp only [Bool.not_eq_eq_eq_not, Bool.not_true, beq_eq_false_iff_ne,
      ne_eq] at hpred
    rcases hic with hic | hic
    · exact hpred (by simpa [hic] using hid)
    · exact hdisj i (List.mem_map.2 ⟨x, hxs, hid⟩) (by simpa [bookIds] using hic)

/-- Witness for C5 at a concrete state, approving the reviewed book. -/
theorem moveBook_approve_spec_witness :
    (bookR.id ∈ bookIds state1.review) ∧
      (bookIds (moveBook state1 bookR MoveAction.approve).confirmed).count
        bookR.id = 1 :=
  ⟨by decide,
    (moveBook_approve_spec state1 bookR (by decide) (by decide)).1⟩

/-- Claim C1: once an id is a member of the review or confirmed
collection, installing any discovery fetch/search result (any source, any
page — the fetched data is universally quantified) excludes every fetched
book with that id from the discovery list it installs, leaves review and
confirmed untouched, and no id appears simultaneously in discovery and a
later stage. -/
theorem installFetched_excludes (s : AppState) (data : List Book)
    (i : String)
    (hi : i ∈ bookIds s.review ∨ i ∈ bookIds s.confirmed) :
    (∀ b ∈ (installFetched s data).discovery, b.id ≠ i)
  ∧ (installFetched s data).review = s.review
  ∧ (installFetched s data).confirmed = s.confirmed
  ∧ ∀ b ∈ (installFetched s data).discovery,
      b.id ∉ bookIds (installFetched s data).review ∧
      b.id ∉ bookIds (installFetched s data).confirmed := by
  have key : ∀ b ∈ (installFetched s data).discovery,
      b.id ∉ bookIds s.review ∧ b.id ∉ bookIds s.confirmed := by
    intro b hb
    rcases List.mem_filter.1 hb with ⟨_, hpred⟩
    simp only [Bool.not_eq_eq_eq_not, Bool.not_true] at hpred
    have hnm : b.id ∉ excludedIds s := by
      intro hmm
      have := List.elem_eq_true_of_mem hmm
      simp only [List.contains] at hpred
      rw [this] at hpred
      exact Bool.true_eq_false.mp hpred
    simp only [excludedIds, bookIds, List.map_append, List.mem_append] at hnm
    push_neg at hnm
    exact ⟨hnm.1, hnm.2⟩
  refine ⟨?_, rfl, rfl, fun b hb => key b hb⟩
  intro b hb hbi
  rcases key b hb with ⟨h1, h2⟩
  rcases hi with hi | hi
  · exact h1 (hbi ▸ hi)
  · exact h2 (hbi ▸ hi)

/-- Witness for C1: with the reviewed book's id excluded, a fetch result
containing a same-id book installs a discovery list without it. -/
theorem installFetched_excludes_witness :
    ("1" ∈ bookIds state1.review ∨ "1" ∈ bookIds state1.confirmed) ∧
      ∀ b ∈ (installFetched state1 [bookR, baseBook]).discovery,
        b.id ≠ "1" :=
  ⟨Or.inl (by decide),
    (installFetched_excludes state1 [bookR, baseBook] "1"
      (Or.inl (by decide))).1⟩

/-- Claim C9 counterexample: with no generative-AI key configured, a call
with an empty book list raises the missing-key error instead of returning
the canned zero-value report, so the claim as stated (EVERY call with an
empty list returns the canned report) fails. -/
theorem analyzeAcquisitionList_no_key_counterexample :
    (analyzeAcquisitionList "" (Except.error "down") []).result =
        Except.error "Gemini API Key is not configured."
  ∧ (analyzeAcquisitionList "" (Except.error "down") []).result ≠
        Except.ok cannedEmptyReport := by
  constructor
  · rfl
  · intro h
    rw [show (analyzeAcquisitionList "" (Except.error "down") []).result =
        Except.error "Gemini API Key is not configured." from rfl] at h
    exact Except.noConfusion h

/-- Claim C9 (amended: provided the generative-AI API key is configured):
a call with an empty book list returns the canned zero-value report —
placeholder texts and a zero recommendation score — without calling the
generative-AI endpoint, whatever that endpoint would have produced. -/
theorem analyzeAcquisitionList_empty_spec (apiKey : String)
    (endpointResp : Except String GeminiAnalysis) (h : apiKey ≠ "") :
    (analyzeAcquisitionList apiKey endpointResp []).result =
        Except.ok cannedEmptyReport
  ∧ (analyzeAcquisitionList apiKey endpointResp []).endpointCalled = false
  ∧ cannedEmptyReport.recommendationScore = 0
  ∧ cannedEmptyReport.summary = "선택된 도서가 없습니다." := by
  refine ⟨?_, ?_, rfl, rfl⟩ <;> simp [analyzeAcquisitionList, h]

/-- Witness for the amended C9 at a concrete key and endpoint outcome. -/
theorem analyzeAcquisitionList_empty_spec_witness :
    ("key" ≠ "") ∧
      (analyzeAcquisitionList "key" (Except.error "down") []).result =
        Except.ok cannedEmptyReport :=
  ⟨by decide,
    (analyzeAcquisitionList_empty_spec "key" (Except.error "down")
      (by decide)).1⟩

/-! ## C3: the recency filter of search results -/

/-- Shared helper: every book in a successful `searchBooks` result passed
both the recency filter and the comic filter. -/
theorem searchBooks_mem_filters (parseDate : String → Option Int)
    (oneYearAgo : Int) (query ttbKey : String) (resp : AladinResponse)
    (r : List Book)
    (hr : searchBooks parseDate oneYearAgo query ttbKey resp = Except.ok r) :
    ∀ b ∈ r, isWithinOneYear parseDate oneYearAgo b.pubDate = true ∧
      isNotComic b = true := by
  intro b hb
  unfold searchBooks at hr
  split at hr
  · injection hr with h
    subst h
    exact absurd hb (List.not_mem_nil b)
  · split at hr
    · exact absurd hr (by simp)
    · split at hr
      · injection hr with h
        subst h
        exact absurd hb (List.not_mem_nil b)
      · injection hr with h
        subst h
        rcases List.mem_filter.1 hb with ⟨hb1, hcomic⟩
        rcases List.mem_filter.1 hb1 with ⟨_, hyear⟩
        exact ⟨hyear, hcomic⟩

/-- A sample Aladin item whose publication-date string is empty. -/
def emptyDateItem : AladinItem :=
  { itemId := 7
    title := "T"
    author := "A"
    publisher := "P"
    pubDate := ""
    cover := ""
    description := none
    isbn13 := "9790000000000"
    priceStandard := 10000
    priceSales := 9000
    link := ""
    categoryName := some "국내도서>소설" }

/-- Claim C3 counterexample: an empty publication-date string does not
parse to a real date (`new Date("")` is Invalid Date, and the source
short-circuits on the empty string before even parsing), yet the book is
REMOVED from the search result, not kept: the claim's "every book whose
date string does not parse to a real date is kept" fails. -/
theorem search_empty_date_counterexample :
    (fun _ => (none : Option Int)) "" = none
  ∧ emptyDateItem.pubDate = ""
  ∧ isWithinOneYear (fun _ => none) 0 "" = false
  ∧ searchBooks (fun _ => none) 0 "역사" "key"
      { errorCode := none, errorMessage := none,
        item := some [emptyDateItem] } = Except.ok [] := by
  exact ⟨rfl, rfl, rfl, rfl⟩

/-- Claim C3 (amended): in search results, a book is removed by the
recency filter iff its publication-date string is EMPTY or parses to a
real date older than exactly one year before now; every book whose date
string is nonempty but does not parse to a real date is kept, and every
book in a successful search result passed the recency filter. -/
theorem isWithinOneYear_spec (parseDate : String → Option Int)
    (oneYearAgo : Int) (s query ttbKey : String) (resp : AladinResponse) :
    (isWithinOneYear parseDate oneYearAgo s = false ↔
      s = "" ∨ ∃ t, parseDate s = some t ∧ t < oneYearAgo)
  ∧ (s ≠ "" → parseDate s = none →
      isWithinOneYear parseDate oneYearAgo s = true)
  ∧ (∀ r, searchBooks parseDate oneYearAgo query ttbKey resp =
        Except.ok r →
      ∀ b ∈ r, isWithinOneYear parseDate oneYearAgo b.pubDate = true) := by
  refine ⟨?_, ?_, ?_⟩
  · unfold isWithinOneYear
    by_cases hs : s = ""
    · simp [hs]
    · simp only [hs, if_false]
      cases hp : parseDate s with
      | none => simp [hs]
      | some t => simp [hs, not_le]
  · intro hs hp
    unfold isWithinOneYear
    simp [hs, hp]
  · intro r hr b hb
    exact (searchBooks_mem_filters parseDate oneYearAgo query ttbKey resp
      r hr b hb).1

/-- Witness for the amended C3: a nonempty unparsable date string is
kept. -/
theorem isWithinOneYear_spec_witness :
    (("미상" : String) ≠ "") ∧ (fun _ => (none : Option Int)) "미상" = none ∧
      isWithinOneYear (fun _ => none) 0 "미상" = true :=
  ⟨by decide, rfl,
    (isWithinOneYear_spec (fun _ => none) 0 "미상" "q" "k"
      { errorCode := none, errorMessage := none, item := none }).2.1
      (by decide) rfl⟩

/-! ## C8: CSV export escaping -/

/-- Scanning a quote-doubled body followed by the closing quote recovers
the original characters. -/
theorem scanQuoted_escape (l : List Char) :
    scanQuoted ((l.flatMap fun c => if c = '"' then ['"', '"'] else [c]) ++
      ['"']) = some l := by
  induction l with
  | nil => rfl
  | cons c t ih =>
      by_cases hc : c = '"'
      · subst hc
        simp only [List.flatMap_cons, if_pos rfl, List.cons_append,
          List.append_assoc, List.singleton_append]
        rw [scanQuoted.eq_def]
        simp [ih]
      · simp only [List.flatMap_cons, if_neg hc, List.cons_append,
          List.singleton_append]
        rw [scanQuoted.eq_def]
        simp [hc, ih]

/-- Scanning a quote-free body followed by the closing quote recovers the
original characters. -/
theorem scanQuoted_noquote (l : List Char) (h : '"' ∉ l) :
    scanQuoted (l ++ ['"']) = some l := by
  induction l with
  | nil => rfl
  | cons c t ih =>
      have hc : ¬ c = '"' := fun e => h (e ▸ List.mem_cons_self c t)
      rw [List.cons_append, scanQuoted.eq_def]
      simp [hc, ih fun m => h (List.mem_cons_of_mem _ m)]

/-- A field escaped like title/author/publisher round-trips through the
standard CSV field parser. -/
theorem parseCsvField_escapeField (s : String) :
    parseCsvField (escapeField s) = some s := by
  have h1 : parseCsvField (escapeField s) =
      (scanQuoted ((s.toList.flatMap fun c =>
        if c = '"' then ['"', '"'] else [c]) ++ ['"'])).map String.mk := rfl
  rw [h1, scanQuoted_escape]
  rfl

/-- A quote-wrapped field round-trips only when its content contains no
double quote. -/
theorem parseCsvField_quoteWrap (s : String) (h : '"' ∉ s.toList) :
    parseCsvField (quoteWrap s) = some s := by
  have h1 : parseCsvField (quoteWrap s) =
      (scanQuoted (s.toList ++ ['"'])).map String.mk := rfl
  rw [h1, scanQuoted_noquote s.toList h]
  rfl

/-- A sample confirmed book whose category path embeds a double quote. -/
def badBook : Book :=
  { baseBook with
    id := "9"
    categoryName := some "A\"B"
    status := some BookStatus.confirmed }

/-- Claim C8 counterexample: the category column (like publication date
and ISBN-13) is merely quote-wrapped, NOT double-quote-escaped, so a
category value with an embedded double quote produces a malformed CSV
field that a standard CSV parser rejects instead of round-tripping. -/
theorem csv_unescaped_category_counterexample :
    (csvFields badBook).getLast? = some (quoteWrap "A\"B")
  ∧ quoteWrap "A\"B" = "\"A\"B\""
  ∧ parseCsvField "\"A\"B\"" = none
  ∧ parseCsvField (quoteWrap "A\"B") ≠ some "A\"B" := by
  refine ⟨rfl, rfl, rfl, ?_⟩
  intro h
  rw [show parseCsvField (quoteWrap "A\"B") = none from rfl] at h
  exact Option.noConfusion h

/-- Claim C8 (amended): the exported CSV begins with a UTF-8 byte-order
mark; the title, author and publisher fields are double-quote-escaped and
round-trip through a standard CSV parser back to the original value even
with embedded double quotes; the publication-date, ISBN-13 and category
fields are only wrapped in double quotes, so they round-trip exactly when
the value contains no embedded double quote. -/
theorem csv_export_spec (books : List Book) (b : Book) :
    (csvContent books).toList.head? = some bomChar
  ∧ parseCsvField (escapeField b.title) = some b.title
  ∧ parseCsvField (escapeField b.author) = some b.author
  ∧ parseCsvField (escapeField b.publisher) = some b.publisher
  ∧ ('"' ∉ b.pubDate.toList →
      parseCsvField (quoteWrap b.pubDate) = some b.pubDate)
  ∧ ('"' ∉ b.isbn13.toList →
      parseCsvField (quoteWrap b.isbn13) = some b.isbn13)
  ∧ (∀ cat, '"' ∉ cat.toList →
      parseCsvField (quoteWrap cat) = some cat) := by
  refine ⟨?_, parseCsvField_escapeField _, parseCsvField_escapeField _,
    parseCsvField_escapeField _, fun h => parseCsvField_quoteWrap _ h,
    fun h => parseCsvField_quoteWrap _ h,
    fun cat h => parseCsvField_quoteWrap _ h⟩
  show (csvContent books).data.head? = some bomChar
  rw [csvContent, String.data_append]
  rfl

/-- Witness for the amended C8 at a concrete book with an embedded
double quote in its title. -/
theorem csv_export_spec_witness :
    parseCsvField (escapeField "한국사 \"요약\"") = some "한국사 \"요약\"" :=
  (csv_export_spec [{ baseBook with title := "한국사 \"요약\"" }]
    { baseBook with title := "한국사 \"요약\"" }).2.1

/-! ## C7: comic filter applies to commercial sources, not to NLK -/

/-- Claim C7: a book whose category path contains the comics marker is
excluded from every successful commercial-catalog fetch (`bestseller`,
`itemNewSpecial`, `combined`) and from search results, but is NOT
excluded from `editorRecommend` results: every NLK doc is mapped into the
result with no comic filter, whatever its category value. -/
theorem comic_filter_asymmetry (ttbKey nlkKey : String) (env : FetchEnv) :
    (∀ source, source ≠ FetchSource.editorRecommend →
      ∀ r, fetchBooks source ttbKey nlkKey env = Except.ok r →
        ∀ b ∈ r, isNotComic b = true)
  ∧ (∀ parseDate oneYearAgo query resp r,
      searchBooks parseDate oneYearAgo query ttbKey resp = Except.ok r →
        ∀ b ∈ r, isNotComic b = true)
  ∧ (nlkKey ≠ "" → env.nlk.error = none →
      ∀ docs, env.nlk.docs = some docs →
        ∀ r, fetchBooks FetchSource.editorRecommend ttbKey nlkKey env =
            Except.ok r →
          ∀ doc ∈ docs, mapNlkDocToBook doc ∈ r) := by
  refine ⟨?_, ?_, ?_⟩
  · intro source hs r hr b hb
    cases source with
    | editorRecommend => exact absurd rfl hs
    | bestseller =>
        simp only [fetchBooks] at hr
        split at hr
        · injection hr with h
          subst h
          exact absurd hb (List.not_mem_nil b)
        · split at hr
          · exact absurd hr (by simp)
          · injection hr with h
            subst h
            exact (List.mem_filter.1 hb).2
    | itemNewSpecial =>
        simp only [fetchBooks] at hr
        split at hr
        · injection hr with h
          subst h
          exact absurd hb (List.not_mem_nil b)
        · split at hr
          · exact absurd hr (by simp)
          · injection hr with h
            subst h
            exact (List.mem_filter.1 hb).2
    | combined =>
        simp only [fetchBooks] at hr
        split at hr
        · injection hr with h
          subst h
          exact absurd hb (List.not_mem_nil b)
        · split at hr
          · exact absurd hr (by simp)
          · split at hr
            · exact absurd hr (by simp)
            · injection hr with h
              subst h
              exact (List.mem_filter.1 hb).2
  · intro parseDate oneYearAgo query resp r hr b hb
    exact (searchBooks_mem_filters parseDate oneYearAgo query ttbKey resp
      r hr b hb).2
  · intro hk he docs hd r hr doc hdoc
    simp only [fetchBooks] at hr
    rw [if_neg hk, he, hd] at hr
    injection hr with h
    subst h
    exact List.mem_map_of_mem mapNlkDocToBook hdoc

/-- A sample NLK document whose category value contains the comics
marker. -/
def comicDoc : NlkDoc :=
  { isbn13 := "9791100000000"
    no := 1
    bookname := "코믹북"
    authors := "A"
    publisher := "P"
    publicationYear := "2025"
    bookImageURL := ""
    description := ""
    classNm := some "만화>코믹"
    bookDtlUrl := "" }

/-- A fetch environment whose NLK response carries the comic document. -/
def envComic : FetchEnv :=
  { bestseller := { errorCode := none, errorMessage := none, item := none }
    itemNewSpecial := { errorCode := none, errorMessage := none, item := none }
    nlk := { error := none, docs := some [comicDoc] } }

/-- Witness for C7: a comic-category NLK doc — one the comic filter WOULD
reject — still appears in the `editorRecommend` result. -/
theorem comic_filter_asymmetry_witness :
    isNotComic (mapNlkDocToBook comicDoc) = false ∧
      ∀ doc ∈ [comicDoc],
        mapNlkDocToBook doc ∈ [mapNlkDocToBook comicDoc] :=
  ⟨by decide,
    (comic_filter_asymmetry "tk" "nk" envComic).2.2 (by decide) rfl
      [comicDoc] rfl [mapNlkDocToBook comicDoc] rfl⟩

/-! ## C4: the proxy fetch gateway contract -/

/-- `runAttempts` succeeds with `v` iff some attempt in the list is the
first success and yields `v`. -/
theorem runAttempts_inl_iff {V : Type} (l : List (Except String V))
    (le : Option String) (v : V) :
    runAttempts l le = Sum.inl v ↔
      ∃ i, i < l.length ∧ l[i]? = some (Except.ok v) ∧
        ∀ j, j < i → ∃ e, l[j]? = some (Except.error e) := by
  induction l generalizing le with
  | nil => simp [runAttempts]
  | cons a t ih =>
      cases a with
      | ok w =>
          constructor
          · intro h
            have hw : w = v := by simpa [runAttempts] using h
            subst hw
            exact ⟨0, Nat.succ_pos _, by simp,
              fun j hj => absurd hj (Nat.not_lt_zero j)⟩
          · rintro ⟨i, hi, hget, hprev⟩
            cases i with
            | zero =>
                simp only [List.getElem?_cons_zero, Option.some.injEq,
                  Except.ok.injEq] at hget
                simp [runAttempts, hget]
            | succ i' =>
                rcases hprev 0 (Nat.succ_pos _) with ⟨e, he⟩
                simp at he
      | error e =>
          constructor
          · intro h
            rcases (ih (some e)).1 h with ⟨i, hi, hget, hprev⟩
            refine ⟨i + 1, Nat.succ_lt_succ hi, by simpa using hget, ?_⟩
            intro j hj
            cases j with
            | zero => exact ⟨e, by simp⟩
            | succ j' =>
                rcases hprev j' (Nat.lt_of_succ_lt_succ hj) with ⟨e', he'⟩
                exact ⟨e', by simpa using he'⟩
          · rintro ⟨i, hi, hget, hprev⟩
            cases i with
            | zero => simp at hget
            | succ i' =>
                refine (ih (some e)).2
                  ⟨i', Nat.lt_of_succ_lt_succ hi, by simpa using hget, ?_⟩
                intro j hj
                rcases hprev (j + 1) (Nat.succ_lt_succ hj) with ⟨e', he'⟩
                exact ⟨e', by simpa using he'⟩

/-- Claim C4: the gateway visits each of the 2 configured proxies at most
2 times, in proxy-major order; it returns `Except.ok v` exactly when some
attempt is the first to succeed (transport, HTTP status and JSON parse
all ok) with body `v`; and when every proxy/attempt combination fails it
raises the error of the last attempt (proxy 1, attempt 1). The generic
all-proxies-failed error exists only for the unreachable empty-attempt
case. -/
theorem fetchWithRetry_spec {V : Type} (env : Nat → Nat → Except String V) :
    fetchAttempts env = [env 0 0, env 0 1, env 1 0, env 1 1]
  ∧ (∀ v, fetchWithRetry env = Except.ok v ↔
      ∃ i, i < (fetchAttempts env).length ∧
        (fetchAttempts env)[i]? = some (Except.ok v) ∧
        ∀ j, j < i → ∃ e, (fetchAttempts env)[j]? = some (Except.error e))
  ∧ ((∀ p a, p < proxyCount → a < attemptsPerProxy →
        ∃ e, env p a = Except.error e) →
      ∃ e, env 1 1 = Except.error e ∧
        fetchWithRetry env = Except.error e) := by
  refine ⟨rfl, ?_, ?_⟩
  · intro v
    rw [← runAttempts_inl_iff (fetchAttempts env) none v]
    unfold fetchWithRetry
    cases hr : runAttempts (fetchAttempts env) none with
    | inl w => simp [hr]
    | inr o => cases o <;> simp [hr]
  · intro h
    obtain ⟨e00, h00⟩ := h 0 0 (by decide) (by decide)
    obtain ⟨e01, h01⟩ := h 0 1 (by decide) (by decide)
    obtain ⟨e10, h10⟩ := h 1 0 (by decide) (by decide)
    obtain ⟨e11, h11⟩ := h 1 1 (by decide) (by decide)
    refine ⟨e11, h11, ?_⟩
    unfold fetchWithRetry
    rw [show fetchAttempts env = [env 0 0, env 0 1, env 1 0, env 1 1]
      from rfl, h00, h01, h10, h11]
    rfl

/-- Witness for C4: with every attempt failing with the same error, the
gateway raises that (last) error. -/
theorem fetchWithRetry_spec_witness :
    ∃ e, (fun _ _ => (Except.error "down" : Except String Nat)) 1 1 =
        Except.error e ∧
      fetchWithRetry (fun _ _ => (Except.error "down" : Except String Nat)) =
        Except.error e :=
  (fetchWithRetry_spec fun _ _ => (Except.error "down" : Except String Nat)).2.2
    fun _ _ _ _ => ⟨"down", rfl⟩

/-! ## C2: the `combined` merge -/

/-- The head entry produced by `dedupLast` bears the id of the first
element. -/
theorem dedupLast_head_id (b : Book) (rest : List Book) :
    (((b :: rest).reverse.find? fun y => y.id == b.id).getD b).id = b.id := by
  cases hf : (b :: rest).reverse.find? (fun y => y.id == b.id) with
  | none => rfl
  | some z =>
      have hz := List.find?_some hf
      simp only [beq_iff_eq] at hz
      simpa using hz

/-- Every entry of `dedupLast l` is an entry of `l`. -/
theorem dedupLast_subset : ∀ (l : List Book), ∀ x ∈ dedupLast l, x ∈ l := by
  intro l
  induction l using dedupLast.induct with
  | case1 =>
      intro x hx
      simp [dedupLast] at hx
  | case2 b rest ih =>
      intro x hx
      rw [dedupLast] at hx
      rcases List.mem_cons.1 hx with hx | hx
      · cases hf : (b :: rest).reverse.find? (fun y => y.id == b.id) with
        | none =>
            rw [hf] at hx
            exact hx ▸ List.mem_cons_self b rest
        | some z =>
            rw [hf] at hx
            have hz : z ∈ (b :: rest).reverse := List.mem_of_find?_eq_some hf
            rw [List.mem_reverse] at hz
            exact hx ▸ hz
      · have := ih x hx
        exact List.mem_cons_of_mem b (List.mem_filter.1 this).1

/-- The ids of `dedupLast l` are pairwise distinct. -/
theorem dedupLast_ids_nodup : ∀ (l : List Book),
    (bookIds (dedupLast l)).Nodup := by
  intro l
  induction l using dedupLast.induct with
  | case1 => simp [dedupLast, bookIds]
  | case2 b rest ih =>
      rw [dedupLast]
      simp only [bookIds, List.map_cons, List.nodup_cons]
      refine ⟨?_, by simpa [bookIds] using ih⟩
      intro hmem
      rcases List.mem_map.1 hmem with ⟨x, hx, hid⟩
      have hxf := dedupLast_subset _ x hx
      have hpred := (List.mem_filter.1 hxf).2
      simp only [Bool.not_eq_eq_eq_not, Bool.not_true, beq_eq_false_iff_ne,
        ne_eq] at hpred
      exact hpred (hid.trans (dedupLast_head_id b rest))

/-- `dedupLast` preserves the set of ids. -/
theorem mem_bookIds_dedupLast : ∀ (l : List Book) (i : String),
    i ∈ bookIds (dedupLast l) ↔ i ∈ bookIds l := by
  intro l
  induction l using dedupLast.induct with
  | case1 => intro i; rw [dedupLast]
  | case2 b rest ih =>
      intro i
      constructor
      · intro h
        rcases List.mem_map.1 h with ⟨x, hx, hid⟩
        exact List.mem_map.2 ⟨x, dedupLast_subset _ x hx, hid⟩
      · intro h
        rw [dedupLast]
        simp only [bookIds, List.map_cons, List.mem_cons]
        by_cases hib : i = b.id
        · exact Or.inl (by rw [dedupLast_head_id, hib])
        · right
          simp only [bookIds, List.map_cons, List.mem_cons] at h
          rcases h with h | h
          · exact absurd h hib
          · rcases List.mem_map.1 h with ⟨x, hx, hid⟩
            have hxf : x ∈ rest.filter (fun y => !(y.id == b.id)) :=
              List.mem_filter.2 ⟨hx, by simp [hid, hib]⟩
            have : i ∈ bookIds (rest.filter fun y => !(y.id == b.id)) :=
              List.mem_map.2 ⟨x, hxf, hid⟩
            simpa [bookIds] using (ih i).2 this

/-- The length of `dedupLast l` is the number of distinct ids in `l`. -/
theorem dedupLast_length (l : List Book) :
    (dedupLast l).length = (bookIds l).toFinset.card := by
  have h1 : (dedupLast l).length = (bookIds (dedupLast l)).length :=
    (List.length_map _ _).symm
  have h2 : (bookIds (dedupLast l)).toFinset.card =
      (bookIds (dedupLast l)).length :=
    List.toFinset_card_of_nodup (dedupLast_ids_nodup l)
  have h3 : (bookIds (dedupLast l)).toFinset = (bookIds l).toFinset := by
    ext i
    simp only [List.mem_toFinset]
    exact mem_bookIds_dedupLast l i
  rw [h1, ← h2, h3]

/-- When every element satisfying `q` satisfies `p`, filtering by `p`
does not change what `find? q` returns. -/
theorem find?_filter_of_imp {α : Type} (l : List α) (p q : α → Bool)
    (h : ∀ a, q a = true → p a = true) :
    (l.filter p).find? q = l.find? q := by
  induction l with
  | nil => rfl
  | cons a t ih =>
      by_cases hp : p a = true
      · rw [List.filter_cons_of_pos hp]
        by_cases hq : q a = true
        · rw [List.find?_cons_of_pos _ hq, List.find?_cons_of_pos _ hq]
        · rw [List.find?_cons_of_neg _ (by simp [hq]),
            List.find?_cons_of_neg _ (by simp [hq]), ih]
      · have hq : ¬ q a = true := fun hqa => hp (h a hqa)
        rw [List.filter_cons_of_neg (by simp [hp]), ih,
          List.find?_cons_of_neg _ (by simp [hq])]

/-- Every entry of `dedupLast l` is the LAST element of `l` bearing its
id (the `Map`'s last-write-wins semantics). -/
theorem dedupLast_last_wins : ∀ (l : List Book), ∀ x ∈ dedupLast l,
    l.reverse.find? (fun y => y.id == x.id) = some x := by
  intro l
  induction l using dedupLast.induct with
  | case1 =>
      intro x hx
      simp [dedupLast] at hx
  | case2 b rest ih =>
      intro x hx
      rw [dedupLast] at hx
      rcases List.mem_cons.1 hx with hx | hx
      · have hne : ((b :: rest).reverse.find? fun y => y.id == b.id).isSome := by
          rw [List.find?_isSome]
          exact ⟨b, by simp, by simp⟩
        cases hf : (b :: rest).reverse.find? (fun y => y.id == b.id) with
        | none => rw [hf] at hne; simp at hne
        | some z =>
            rw [hf] at hx
            simp only [Option.getD_some] at hx
            have hid : x.id = b.id := by
              have h2 := List.find?_some hf
              rw [hx]
              simpa using h2
            have hfun : (fun (y : Book) => y.id == x.id) =
                (fun y => y.id == b.id) := funext fun y => by rw [hid]
            rw [hfun, hf, hx]
      · have hx' := ih x hx
        have hxmem : x ∈ rest.filter (fun y => !(y.id == b.id)) :=
          dedupLast_subset _ x hx
        have hxid : x.id ≠ b.id := by
          have := (List.mem_filter.1 hxmem).2
          simpa using this
        rw [show (b :: rest).reverse = rest.reverse ++ [b] from by simp,
          List.find?_append]
        have hrev : rest.reverse.find? (fun y => y.id == x.id) = some x := by
          rw [← List.filter_reverse] at hx'
          rw [← find?_filter_of_imp rest.reverse
            (fun y => !(y.id == b.id)) (fun y => y.id == x.id) ?_]
          · exact hx'
          · intro a ha
            have haid : a.id = x.id := by simpa using ha
            simp [haid, hxid]
        rw [hrev]
        rfl

/-- Claim C2: for the `combined` source, with both listings successful
and each listing's ids internally distinct ("id sets"), the merged list
has `|B| + |N| - k` entries where `k` is the number of shared ids; every
merged entry whose id occurs in the new-special list N IS the (unique)
entry of N with that id (last occurrence wins in the dedup map); every id
of either listing is represented; and the comic filter is applied to the
merged set to produce the returned value. -/
theorem fetchBooks_combined_spec (ttbKey nlkKey : String) (env : FetchEnv)
    (ht : ttbKey ≠ "")
    (hbe : env.bestseller.errorCode = none)
    (hne : env.itemNewSpecial.errorCode = none)
    (hB : (bookIds (aladinBooks env.bestseller)).Nodup)
    (hN : (bookIds (aladinBooks env.itemNewSpecial)).Nodup) :
    fetchBooks FetchSource.combined ttbKey nlkKey env =
      Except.ok ((dedupLast (aladinBooks env.bestseller ++
        aladinBooks env.itemNewSpecial)).filter isNotComic)
  ∧ (dedupLast (aladinBooks env.bestseller ++
      aladinBooks env.itemNewSpecial)).length =
      (aladinBooks env.bestseller).length +
        (aladinBooks env.itemNewSpecial).length -
        ((bookIds (aladinBooks env.bestseller)).toFinset ∩
          (bookIds (aladinBooks env.itemNewSpecial)).toFinset).card
  ∧ (∀ x ∈ dedupLast (aladinBooks env.bestseller ++
        aladinBooks env.itemNewSpecial),
      x.id ∈ bookIds (aladinBooks env.itemNewSpecial) →
        x ∈ aladinBooks env.itemNewSpecial ∧
        ∀ y ∈ aladinBooks env.itemNewSpecial, y.id = x.id → y = x)
  ∧ (∀ i, i ∈ bookIds (aladinBooks env.bestseller ++
        aladinBooks env.itemNewSpecial) ↔
      ∃ x ∈ dedupLast (aladinBooks env.bestseller ++
        aladinBooks env.itemNewSpecial), x.id = i) := by
  refine ⟨?_, ?_, ?_, ?_⟩
  · simp [fetchBooks, aladinListBooks, ht, hbe, hne]
  · rw [dedupLast_length]
    have hsplit : bookIds (aladinBooks env.bestseller ++
        aladinBooks env.itemNewSpecial) =
        bookIds (aladinBooks env.bestseller) ++
          bookIds (aladinBooks env.itemNewSpecial) := by
      simp [bookIds]
    rw [hsplit, List.toFinset_append]
    have hcard := Finset.card_union_add_card_inter
      (bookIds (aladinBooks env.bestseller)).toFinset
      (bookIds (aladinBooks env.itemNewSpecial)).toFinset
    have hcB : (bookIds (aladinBooks env.bestseller)).toFinset.card =
        (aladinBooks env.bestseller).length := by
      rw [List.toFinset_card_of_nodup hB, bookIds, List.length_map]
    have hcN : (bookIds (aladinBooks env.itemNewSpecial)).toFinset.card =
        (aladinBooks env.itemNewSpecial).length := by
      rw [List.toFinset_card_of_nodup hN, bookIds, List.length_map]
    omega
  · intro x hx hxN
    have hlast := dedupLast_last_wins _ x hx
    rw [List.reverse_append, List.find?_append] at hlast
    have hsome : ((aladinBooks env.itemNewSpecial).reverse.find?
        fun y => y.id == x.id).isSome := by
      rw [List.find?_isSome]
      rcases List.mem_map.1 hxN with ⟨y, hy, hyid⟩
      exact ⟨y, List.mem_reverse.2 hy, by simp [hyid]⟩
    cases hf : (aladinBooks env.itemNewSpecial).reverse.find?
        (fun y => y.id == x.id) with
    | none => rw [hf] at hsome; simp at hsome
    | some z =>
        rw [hf] at hlast
        have hzx : z = x := by simpa using hlast
        subst hzx
        have hzmem : z ∈ aladinBooks env.itemNewSpecial :=
          List.mem_reverse.1 (List.mem_of_find?_eq_some hf)
        refine ⟨hzmem, ?_⟩
        intro y hy hid
        exact List.inj_on_of_nodup_map (by simpa [bookIds] using hN)
          hy hzmem hid
  · intro i
    constructor
    · intro h
      rcases List.mem_map.1
        ((mem_bookIds_dedupLast _ i).2 h) with ⟨x, hx, hid⟩
      exact ⟨x, hx, hid⟩
    · rintro ⟨x, hx, hid⟩
      exact (mem_bookIds_dedupLast _ i).1 (List.mem_map.2 ⟨x, hx, hid⟩)

/-- A sample Aladin item generator for the combined-merge witness. -/
def itemW (n : Nat) (t : String) : AladinItem :=
  { itemId := n
    title := t
    author := "A"
    publisher := "P"
    pubDate := "2025-01-01"
    cover := ""
    description := none
    isbn13 := ""
    priceStandard := 0
    priceSales := 0
    link := ""
    categoryName := some "국내도서>소설" }

/-- A fetch environment whose bestseller and new-special listings share
exactly one id (`2`), with different records for it. -/
def envW : FetchEnv :=
  { bestseller :=
      { errorCode := none, errorMessage := none
        item := some [itemW 1 "B1", itemW 2 "Bold"] }
    itemNewSpecial :=
      { errorCode := none, errorMessage := none
        item := some [itemW 2 "Nnew", itemW 3 "N3"] }
    nlk := { error := none, docs := none } }

/-- Witness for C2 at the concrete overlapping listings. -/
theorem fetchBooks_combined_spec_witness :
    ((bookIds (aladinBooks envW.bestseller)).Nodup ∧
      (bookIds (aladinBooks envW.itemNewSpecial)).Nodup) ∧
    (dedupLast (aladinBooks envW.bestseller ++
        aladinBooks envW.itemNewSpecial)).length =
      (aladinBooks envW.bestseller).length +
        (aladinBooks envW.itemNewSpecial).length -
        ((bookIds (aladinBooks envW.bestseller)).toFinset ∩
          (bookIds (aladinBooks envW.itemNewSpecial)).toFinset).card :=
  ⟨⟨by decide, by decide⟩,
    (fetchBooks_combined_spec "tk" "nk" envW (by decide) rfl rfl
      (by decide) (by decide)).2.1⟩

end AutoBook
